import Mathlib

/-!
Verification of the voting and vote-aggregation subsystem of the feature-voting
repository (voting-service/server.js together with the vote triggers in
docker/database/init/0-triggers.sql and the votes-table constraints in
docker/database/init/03-sample-data.sql).

The embedding models the two relevant tables (`features`, `votes`) as lists of
records and each HTTP handler as a function from a database state to a new
database state plus a response.  MySQL `AFTER INSERT` / `AFTER UPDATE` /
`AFTER DELETE` trigger behaviour on the `votes` table (recompute-from-scratch
of the three feature counters) is folded into the row-mutation primitives,
exactly as the triggers fire on every row change.  Timestamps
(`created_at` / `updated_at`), notification rows and activity-log rows are
omitted: no claim refers to them.  The `UNIQUE KEY unique_user_feature_vote
(user_id, feature_id)` and the foreign key from `votes.feature_id` to
`features.id` are modelled as failure cases of the insert primitive.
-/

namespace Voting

/-- `vote_type ENUM('upvote','downvote')` from the votes table. -/
inductive VoteType where
  | upvote
  | downvote
deriving DecidableEq, Repr

/-- `features.status ENUM('pending','approved','rejected','implemented','archived')`. -/
inductive FStatus where
  | pending
  | approved
  | rejected
  | implemented
  | archived
deriving DecidableEq, Repr

/-- A row of the `votes` table (timestamps omitted). -/
structure Vote where
  id : Nat
  user_id : Nat
  feature_id : Nat
  vote_type : VoteType
deriving DecidableEq, Repr

/-- A row of the `features` table restricted to the columns the voting
subsystem reads or writes: `user_id` is the owner, and the three counter
columns are maintained by the vote triggers (timestamps omitted). -/
structure Feature where
  id : Nat
  user_id : Nat
  status : FStatus
  votes_count : Int
  upvotes_count : Nat
  downvotes_count : Nat
deriving DecidableEq, Repr

/-- The database state seen by the voting service: the two tables plus the
`AUTO_INCREMENT` counter of the votes table. -/
structure DB where
  features : List Feature
  votes : List Vote
  nextVoteId : Nat
deriving DecidableEq, Repr

/-- `COUNT(CASE WHEN vote_type = ty THEN 1 END) FROM votes WHERE feature_id = fid`:
the ledger aggregate each trigger recomputes and the cast handler re-reads. -/
def countTyped (votes : List Vote) (fid : Nat) (ty : VoteType) : Nat :=
  votes.countP (fun v => v.feature_id == fid && v.vote_type == ty)

/-- The `UPDATE features SET votes_count = up - down, upvotes_count = up,
downvotes_count = down WHERE id = fid` statement shared by the three vote
triggers, with `up`/`down` freshly counted from the votes table. -/
def recomputeCounts (votes : List Vote) (fid : Nat) (features : List Feature) :
    List Feature :=
  features.map (fun f =>
    if f.id == fid then
      { f with
        upvotes_count := countTyped votes fid VoteType.upvote,
        downvotes_count := countTyped votes fid VoteType.downvote,
        votes_count :=
          (countTyped votes fid VoteType.upvote : Int) -
            (countTyped votes fid VoteType.downvote : Int) }
    else f)

/-- `INSERT INTO votes (user_id, feature_id, vote_type) VALUES (uid, fid, t)`
followed by the `update_votes_count_after_insert` trigger.  The new row takes
the `AUTO_INCREMENT` id.  (Constraint checks live in `tryInsertVote`.) -/
def insertVote (db : DB) (uid fid : Nat) (t : VoteType) : DB :=
  let votes := db.votes ++ [⟨db.nextVoteId, uid, fid, t⟩]
  { features := recomputeCounts votes fid db.features,
    votes := votes,
    nextVoteId := db.nextVoteId + 1 }

/-- The two ways an insert into `votes` can be rejected by the schema:
`UNIQUE KEY unique_user_feature_vote (user_id, feature_id)` and the
`FOREIGN KEY (feature_id) REFERENCES features(id)`. -/
inductive SqlError where
  | dupEntry
  | fkMissingFeature
deriving DecidableEq, Repr

/-- The mysql driver error code carried by a rejected insert.  Neither
constraint violation is a trigger `SIGNAL`, so neither code is
`ER_SIGNAL_EXCEPTION`. -/
def sqlErrorCode : SqlError → String
  | SqlError.dupEntry => "ER_DUP_ENTRY"
  | SqlError.fkMissingFeature => "ER_NO_REFERENCED_ROW_2"

/-- The `error.message` text of a rejected insert (used by the bulk runner's
per-operation catch). -/
def sqlErrorMessage : SqlError → String
  | SqlError.dupEntry => "Duplicate entry for key unique_user_feature_vote"
  | SqlError.fkMissingFeature => "Cannot add or update a child row: a foreign key constraint fails"

/-- An insert into `votes` as MySQL executes it: rejected when the referenced
feature is missing (foreign key) or a row with the same (user_id, feature_id)
already exists (unique key); otherwise the row is inserted, the insert trigger
fires, and the new row's id is returned. -/
def tryInsertVote (db : DB) (uid fid : Nat) (t : VoteType) :
    Except SqlError (DB × Nat) :=
  if db.features.all (fun f => !(f.id == fid)) then
    Except.error SqlError.fkMissingFeature
  else if db.votes.any (fun v => v.user_id == uid && v.feature_id == fid) then
    Except.error SqlError.dupEntry
  else
    Except.ok (insertVote db uid fid t, db.nextVoteId)

/-- `UPDATE votes SET vote_type = t WHERE id = vid` followed by the
`update_votes_count_after_update` trigger, which recomputes the feature
counters only when `OLD.vote_type != NEW.vote_type`.  A vid matching no row
updates nothing and raises no error (MySQL reports zero affected rows). -/
def updateVoteRow (db : DB) (vid : Nat) (t : VoteType) : DB :=
  match db.votes.find? (fun v => v.id == vid) with
  | none => db
  | some old =>
    let votes := db.votes.map (fun v => if v.id == vid then { v with vote_type := t } else v)
    if old.vote_type == t then { db with votes := votes }
    else { db with votes := votes,
                   features := recomputeCounts votes old.feature_id db.features }

/-- `DELETE FROM votes WHERE id = vid` followed by the
`update_votes_count_after_delete` trigger.  A vid matching no row deletes
nothing and raises no error. -/
def deleteVoteRow (db : DB) (vid : Nat) : DB :=
  match db.votes.find? (fun v => v.id == vid) with
  | none => db
  | some old =>
    let votes := db.votes.filter (fun v => !(v.id == vid))
    { db with votes := votes,
              features := recomputeCounts votes old.feature_id db.features }

/-- A handler outcome: either a success payload or an HTTP error response
(`status` plus the `error` string of the JSON body). -/
inductive HandlerResult (α : Type) where
  | ok (data : α)
  | err (status : Nat) (msg : String)
deriving DecidableEq, Repr

/-- The `data` object of a successful POST /votes response. -/
structure CastData where
  vote_id : Option Nat
  action : String
  vote_type : Option VoteType
  feature_id : Nat
  upvotes : Nat
  downvotes : Nat
  total : Int
deriving DecidableEq, Repr

/-- The vote-counts re-read the cast handler performs after its mutation,
packaged with the action taken (`vote_type` is null exactly when the action
is `removed`, per the response construction in the handler). -/
def mkCastData (db : DB) (vid : Option Nat) (action : String) (vt : Option VoteType)
    (fid : Nat) : CastData :=
  { vote_id := vid,
    action := action,
    vote_type := vt,
    feature_id := fid,
    upvotes := countTyped db.votes fid VoteType.upvote,
    downvotes := countTyped db.votes fid VoteType.downvote,
    total := (countTyped db.votes fid VoteType.upvote : Int) -
      (countTyped db.votes fid VoteType.downvote : Int) }

/-- The catch block of POST /votes: a `SIGNAL` raised by a trigger surfaces as
a 400 with the SQL message, every other storage error as a 500.  There is no
other branch: the handler inspects only `error.code === 'ER_SIGNAL_EXCEPTION'`. -/
def castVoteCatch (e : SqlError) : HandlerResult CastData :=
  if sqlErrorCode e == "ER_SIGNAL_EXCEPTION" then
    HandlerResult.err 400 "Vote operation failed"
  else
    HandlerResult.err 500 "Internal server error"

/-- The POST /votes handler, parameterised by a possible concurrent write.
`race = some (ru, rf, rt)` models another request's `INSERT INTO votes`
committing between this handler's read of the existing vote and its own
write (the §5 race of the spec); `race = none` is the isolated sequential
run.  All reads before the mutation see `db`; the mutation executes against
the interleaved state. -/
def castVoteRaced (db : DB) (uid fid : Nat) (t : VoteType)
    (race : Option (Nat × Nat × VoteType)) : DB × HandlerResult CastData :=
  match db.features.find? (fun f => f.id == fid) with
  | none => (db, HandlerResult.err 404 "Feature not found")
  | some feature =>
    if feature.user_id == uid then
      (db, HandlerResult.err 400 "Cannot vote on your own feature")
    else if feature.status == FStatus.archived then
      (db, HandlerResult.err 400 "Cannot vote on archived features")
    else
      let existing := db.votes.find? (fun v => v.user_id == uid && v.feature_id == fid)
      let db1 := match race with
        | none => db
        | some (ru, rf, rt) => insertVote db ru rf rt
      match existing with
      | some ex =>
        if ex.vote_type == t then
          let db2 := deleteVoteRow db1 ex.id
          (db2, HandlerResult.ok (mkCastData db2 none "removed" none fid))
        else
          let db2 := updateVoteRow db1 ex.id t
          (db2, HandlerResult.ok (mkCastData db2 (some ex.id) "updated" (some t) fid))
      | none =>
        match tryInsertVote db1 uid fid t with
        | Except.ok (db2, vid) =>
          (db2, HandlerResult.ok (mkCastData db2 (some vid) "created" (some t) fid))
        | Except.error e => (db1, castVoteCatch e)

/-- The POST /votes handler (`cast_vote`) in an isolated sequential run. -/
def castVote (db : DB) (uid fid : Nat) (t : VoteType) : DB × HandlerResult CastData :=
  castVoteRaced db uid fid t none

/-- The PUT /votes/:id handler (`update_vote`).  The ownership-scoped lookup
`WHERE id = ? AND user_id = ?` yields the same 404 for a missing vote and for
a vote of another user; a same-value update is a 400; otherwise the row is
updated and re-read joined with its feature (the join drops the row if the
feature is missing, leaving the response's vote field undefined). -/
def updateVote (db : DB) (voteId uid : Nat) (t : VoteType) :
    DB × HandlerResult (Option Vote) :=
  match db.votes.find? (fun v => v.id == voteId && v.user_id == uid) with
  | none => (db, HandlerResult.err 404 "Vote not found or access denied")
  | some vote =>
    if vote.vote_type == t then
      (db, HandlerResult.err 400 "Vote type is already set to this value")
    else
      let db1 := updateVoteRow db voteId t
      let joined := match db1.votes.find? (fun v => v.id == voteId) with
        | some v => if db1.features.any (fun f => f.id == v.feature_id) then some v else none
        | none => none
      (db1, HandlerResult.ok joined)

/-- The DELETE /votes/:id handler (`remove_vote`): same ownership-scoped
lookup and 404, then the row is deleted. -/
def removeVote (db : DB) (voteId uid : Nat) : DB × HandlerResult Unit :=
  match db.votes.find? (fun v => v.id == voteId && v.user_id == uid) with
  | none => (db, HandlerResult.err 404 "Vote not found or access denied")
  | some _ => (deleteVoteRow db voteId, HandlerResult.ok ())

/-- The validated actions of a bulk operation (`operations.*.action`). -/
inductive BulkAction where
  | create
  | update
  | delete
deriving DecidableEq, Repr

/-- One element of the `operations` array of POST /votes/bulk.  `user_id` may
be present on the wire but the handler never reads it (only `action`,
`feature_id`, `vote_id`, `vote_type` are consulted). -/
structure BulkOp where
  action : BulkAction
  feature_id : Option Nat
  vote_id : Option Nat
  vote_type : Option VoteType
  user_id : Option Nat
deriving DecidableEq, Repr

/-- One element of the bulk response's `results` array: the echoed operation,
the success flag (initialised false), the insert id for a successful create,
and the caught error message if the operation threw. -/
structure BulkOpResult where
  operation : BulkOp
  success : Bool
  vote_id : Option Nat
  error : Option String
deriving DecidableEq, Repr

/-- One iteration of the bulk loop.  `create` inserts with the calling
admin's user id and catches storage errors as `success:false` with the error
message; `update`/`delete` run the row statement unconditionally (zero
affected rows is not an error, so they report success even for a missing
vote_id); an operation missing its required fields keeps the initial
`success:false` result with no error recorded. -/
def runBulkOp (adminId : Nat) (db : DB) (op : BulkOp) : DB × BulkOpResult :=
  match op.action with
  | BulkAction.create =>
    match op.feature_id, op.vote_type with
    | some fid, some t =>
      match tryInsertVote db adminId fid t with
      | Except.ok (db1, vid) =>
        (db1, { operation := op, success := true, vote_id := some vid, error := none })
      | Except.error e =>
        (db, { operation := op, success := false, vote_id := none,
               error := some (sqlErrorMessage e) })
    | _, _ => (db, { operation := op, success := false, vote_id := none, error := none })
  | BulkAction.update =>
    match op.vote_id, op.vote_type with
    | some vid, some t =>
      (updateVoteRow db vid t,
       { operation := op, success := true, vote_id := none, error := none })
    | _, _ => (db, { operation := op, success := false, vote_id := none, error := none })
  | BulkAction.delete =>
    match op.vote_id with
    | some vid =>
      (deleteVoteRow db vid,
       { operation := op, success := true, vote_id := none, error := none })
    | none => (db, { operation := op, success := false, vote_id := none, error := none })

/-- The bulk loop: operations applied in list order, each result appended;
a per-operation failure never aborts the loop. -/
def runBulk (adminId : Nat) (db : DB) (ops : List BulkOp) :
    DB × List BulkOpResult :=
  ops.foldl
    (fun acc op =>
      let step := runBulkOp adminId acc.1 op
      (step.1, acc.2 ++ [step.2]))
    (db, ([] : List BulkOpResult))

/-- The POST /votes/bulk handler: non-admin callers get a 403 before any
operation runs; otherwise the loop runs and the per-operation results are
returned together with the success count. -/
def bulkVotes (adminId : Nat) (role : String) (db : DB) (ops : List BulkOp) :
    DB × HandlerResult (List BulkOpResult × Nat) :=
  if !(role == "admin") then
    (db, HandlerResult.err 403 "Admin access required")
  else
    let run := runBulk adminId db ops
    (run.1, HandlerResult.ok (run.2, (run.2.filter (fun r => r.success)).length))

/-- The ledger/counter invariant for one feature row: the spec §3 / §8
invariant `upvotes_count = |upvotes|`, `downvotes_count = |downvotes|`,
`votes_count = upvotes_count - downvotes_count`, with the counts taken over
the votes table. -/
def featureCountersOk (votes : List Vote) (f : Feature) : Bool :=
  f.upvotes_count == countTyped votes f.id VoteType.upvote &&
  f.downvotes_count == countTyped votes f.id VoteType.downvote &&
  f.votes_count == (f.upvotes_count : Int) - (f.downvotes_count : Int)

/-- The invariant over the whole database. -/
def countersOk (db : DB) : Bool :=
  db.features.all (featureCountersOk db.votes)

/-- Schema well-formedness the database guarantees: `votes.id` is a primary
key (no two rows share an id) fed by `AUTO_INCREMENT` (every id is below the
counter). -/
def WF (db : DB) : Prop :=
  (db.votes.map (fun v => v.id)).Nodup ∧ ∀ v ∈ db.votes, v.id < db.nextVoteId

instance : DecidablePred WF := fun db => by
  unfold WF
  infer_instance

/-- `success` test for handler outcomes. -/
def HandlerResult.isOk {α : Type} : HandlerResult α → Bool
  | HandlerResult.ok _ => true
  | HandlerResult.err _ _ => false

/-! ### Counting lemmas -/

theorem countTyped_append_single_ne (votes : List Vote) (v : Vote) (g : Nat)
    (ty : VoteType) (h : ¬ v.feature_id = g) :
    countTyped (votes ++ [v]) g ty = countTyped votes g ty := by
  simp [countTyped, List.countP_append, List.countP_cons, h]

theorem countTyped_map_update_ne (votes : List Vote) (vid : Nat) (t : VoteType)
    (g : Nat) (ty : VoteType)
    (h : ∀ v ∈ votes, v.id = vid → ¬ v.feature_id = g) :
    countTyped
        (votes.map (fun v => if v.id == vid then { v with vote_type := t } else v))
        g ty =
      countTyped votes g ty := by
  induction votes with
  | nil => rfl
  | cons w ws ih =>
    have hws : ∀ v ∈ ws, v.id = vid → ¬ v.feature_id = g := fun v hv => h v (by simp [hv])
    have ihw := ih hws
    by_cases hw : w.id = vid
    · have hbeq : (w.id == vid) = true := by simpa using hw
      have hgb : (w.feature_id == g) = false := by simpa using h w (by simp) hw
      simp only [countTyped, List.map_cons, List.countP_cons, hbeq, if_true] at ihw ⊢
      simp [hgb, ihw, countTyped] at ihw ⊢
      exact ihw
    · have hbeq : (w.id == vid) = false := by simpa using hw
      simp only [countTyped, List.map_cons, List.countP_cons, hbeq, Bool.false_eq_true,
        if_false] at ihw ⊢
      omega

theorem countTyped_filter_ne (votes : List Vote) (vid : Nat) (g : Nat) (ty : VoteType)
    (h : ∀ v ∈ votes, v.id = vid → ¬ v.feature_id = g) :
    countTyped (votes.filter (fun v => !(v.id == vid))) g ty = countTyped votes g ty := by
  induction votes with
  | nil => rfl
  | cons w ws ih =>
    have hws : ∀ v ∈ ws, v.id = vid → ¬ v.feature_id = g := fun v hv => h v (by simp [hv])
    have ihw := ih hws
    by_cases hw : w.id = vid
    · have hbeq : (w.id == vid) = true := by simpa using hw
      have hgb : (w.feature_id == g) = false := by simpa using h w (by simp) hw
      simp only [countTyped, List.filter_cons, List.countP_cons, hbeq, Bool.not_true,
        Bool.false_eq_true, if_false, hgb, Bool.false_and] at ihw ⊢
      simpa [countTyped] using ihw
    · have hbeq : (w.id == vid) = false := by simpa using hw
      simp only [countTyped, List.filter_cons, List.countP_cons, hbeq, Bool.not_false,
        if_true] at ihw ⊢
      omega

/-- `featureCountersOk` only looks at the counts for the feature's own id. -/
theorem featureCountersOk_congr (votes votes' : List Vote) (f : Feature)
    (h : ∀ ty, countTyped votes' f.id ty = countTyped votes f.id ty) :
    featureCountersOk votes' f = featureCountersOk votes f := by
  simp [featureCountersOk, h]

/-! ### Recompute lemmas -/

/-- After a recompute for `fid` over the votes list `votes'`, every feature
satisfies the counter invariant wrt `votes'`, provided the features the
recompute does not touch already do. -/
theorem all_ok_recompute (votes' : List Vote) (fid : Nat) (features : List Feature)
    (huntouched : ∀ f ∈ features, ¬ f.id = fid → featureCountersOk votes' f = true) :
    (recomputeCounts votes' fid features).all (featureCountersOk votes') = true := by
  rw [List.all_eq_true]
  intro x hx
  rw [recomputeCounts, List.mem_map] at hx
  obtain ⟨f, hf, rfl⟩ := hx
  by_cases h : f.id = fid
  · simp [h, featureCountersOk]
  · simpa [h] using huntouched f hf h

/-- Recomputing twice for the same feature id is the same as recomputing once
from the later votes list: the second write overwrites the counter fields. -/
theorem recomputeCounts_recomputeCounts (votes1 votes2 : List Vote) (fid : Nat)
    (features : List Feature) :
    recomputeCounts votes2 fid (recomputeCounts votes1 fid features) =
      recomputeCounts votes2 fid features := by
  simp only [recomputeCounts, List.map_map]
  refine List.map_congr_left ?_
  intro f _
  by_cases h : f.id = fid <;> simp [h]

/-- A recompute writes back exactly the values the invariant already forces:
on a database satisfying the invariant it is the identity. -/
theorem recomputeCounts_eq_self (votes : List Vote) (fid : Nat)
    (features : List Feature)
    (hok : ∀ f ∈ features, featureCountersOk votes f = true) :
    recomputeCounts votes fid features = features := by
  rw [recomputeCounts]
  have : ∀ f ∈ features,
      (if f.id == fid then
        { f with
          upvotes_count := countTyped votes fid VoteType.upvote,
          downvotes_count := countTyped votes fid VoteType.downvote,
          votes_count :=
            (countTyped votes fid VoteType.upvote : Int) -
              (countTyped votes fid VoteType.downvote : Int) } else f) = f := by
    intro f hf
    by_cases h : f.id = fid
    · have hinv := hok f hf
      simp only [featureCountersOk, Bool.and_eq_true, beq_iff_eq] at hinv
      obtain ⟨⟨h1, h2⟩, h3⟩ := hinv
      cases f
      simp_all
    · simp [h]
  calc features.map _ = features.map id := List.map_congr_left (by simpa using this)
    _ = features := List.map_id features

/-! ### Primary-key consequences -/

/-- With `votes.id` a primary key, every row matching the id of a found row is
that row. -/
theorem eq_of_mem_id_eq (votes : List Vote) (vid : Nat) (old : Vote)
    (hnodup : (votes.map (fun v => v.id)).Nodup)
    (hfind : votes.find? (fun v => v.id == vid) = some old) :
    ∀ v ∈ votes, v.id = vid → v = old := by
  intro v hv hvid
  have hold_mem : old ∈ votes := List.mem_of_find?_eq_some hfind
  have hold_id : old.id = vid := by simpa using List.find?_some hfind
  exact List.inj_on_of_nodup_map hnodup hv hold_mem (by simp [hvid, hold_id])

/-! ### Invariant preservation for the row primitives -/

theorem countersOk_insertVote (db : DB) (uid fid : Nat) (t : VoteType)
    (hok : countersOk db = true) : countersOk (insertVote db uid fid t) = true := by
  rw [countersOk] at hok
  simp only [countersOk, insertVote]
  apply all_ok_recompute
  intro f hf hne
  have hbase : featureCountersOk db.votes f = true := (List.all_eq_true.mp hok) f hf
  have hcongr := featureCountersOk_congr db.votes
    (db.votes ++ [⟨db.nextVoteId, uid, fid, t⟩]) f
    (fun ty => countTyped_append_single_ne db.votes _ f.id ty
      (fun hh => hne hh.symm))
  rw [hcongr]
  exact hbase

theorem countersOk_updateVoteRow (db : DB) (vid : Nat) (t : VoteType)
    (hnodup : (db.votes.map (fun v => v.id)).Nodup)
    (hok : countersOk db = true) : countersOk (updateVoteRow db vid t) = true := by
  rw [updateVoteRow]
  cases hfind : db.votes.find? (fun v => v.id == vid) with
  | none => exact hok
  | some old =>
    have hmemid := eq_of_mem_id_eq db.votes vid old hnodup hfind
    by_cases hsame : old.vote_type = t
    · have hmap : db.votes.map
          (fun v => if v.id == vid then { v with vote_type := t } else v) = db.votes := by
        have hpt : ∀ v ∈ db.votes,
            (if v.id == vid then { v with vote_type := t } else v) = v := by
          intro v hv
          by_cases hvid : v.id = vid
          · have hveq : v = old := hmemid v hv hvid
            subst hveq
            cases v with
            | mk a b c d => simp_all
          · simp [hvid]
        calc db.votes.map _ = db.votes.map id := List.map_congr_left (by simpa using hpt)
          _ = db.votes := List.map_id db.votes
      have hbeq : (old.vote_type == t) = true := by simpa using hsame
      simp only [hbeq, if_true, hmap]
      exact hok
    · have hbeq : (old.vote_type == t) = false := by simpa using hsame
      simp only [hbeq, Bool.false_eq_true, if_false, countersOk]
      apply all_ok_recompute
      intro f hf hne
      have hok' : db.features.all (featureCountersOk db.votes) = true := hok
      have hbase : featureCountersOk db.votes f = true :=
        (List.all_eq_true.mp hok') f hf
      have hcount : ∀ ty,
          countTyped (db.votes.map
            (fun v => if v.id == vid then { v with vote_type := t } else v)) f.id ty =
          countTyped db.votes f.id ty := by
        intro ty
        apply countTyped_map_update_ne
        intro v hv hvid
        have hveq : v = old := hmemid v hv hvid
        subst hveq
        exact fun hfe => hne (hfe ▸ rfl)
      rw [featureCountersOk_congr db.votes _ f hcount]
      exact hbase

theorem countersOk_deleteVoteRow (db : DB) (vid : Nat)
    (hnodup : (db.votes.map (fun v => v.id)).Nodup)
    (hok : countersOk db = true) : countersOk (deleteVoteRow db vid) = true := by
  rw [deleteVoteRow]
  cases hfind : db.votes.find? (fun v => v.id == vid) with
  | none => exact hok
  | some old =>
    have hmemid := eq_of_mem_id_eq db.votes vid old hnodup hfind
    simp only [countersOk]
    apply all_ok_recompute
    intro f hf hne
    have hok' : db.features.all (featureCountersOk db.votes) = true := hok
    have hbase : featureCountersOk db.votes f = true :=
      (List.all_eq_true.mp hok') f hf
    have hcount : ∀ ty,
        countTyped (db.votes.filter (fun v => !(v.id == vid))) f.id ty =
        countTyped db.votes f.id ty := by
      intro ty
      apply countTyped_filter_ne
      intro v hv hvid
      have hveq : v = old := hmemid v hv hvid
      subst hveq
      exact fun hfe => hne (hfe ▸ rfl)
    rw [featureCountersOk_congr db.votes _ f hcount]
    exact hbase

/-! ### Well-formedness preservation for the row primitives -/

theorem WF_insertVote (db : DB) (uid fid : Nat) (t : VoteType) (h : WF db) :
    WF (insertVote db uid fid t) := by
  obtain ⟨hnodup, hbound⟩ := h
  constructor
  · simp only [insertVote, List.map_append, List.map_cons, List.map_nil]
    rw [List.nodup_append]
    refine ⟨hnodup, List.nodup_singleton _, ?_⟩
    intro a ha hb
    simp only [List.mem_singleton] at hb
    subst hb
    rw [List.mem_map] at ha
    obtain ⟨v, hv, hvid⟩ := ha
    exact absurd (hvid ▸ hbound v hv) (lt_irrefl _)
  · intro v hv
    simp only [insertVote, List.mem_append, List.mem_singleton] at hv
    rcases hv with hv | hv
    · exact Nat.lt_succ_of_lt (hbound v hv)
    · subst hv
      exact Nat.lt_succ_self _

theorem WF_updateVoteRow (db : DB) (vid : Nat) (t : VoteType) (h : WF db) :
    WF (updateVoteRow db vid t) := by
  obtain ⟨hnodup, hbound⟩ := h
  rw [updateVoteRow]
  cases hfind : db.votes.find? (fun v => v.id == vid) with
  | none => exact ⟨hnodup, hbound⟩
  | some old =>
    have hids : (db.votes.map
        (fun v => if v.id == vid then { v with vote_type := t } else v)).map
          (fun v => v.id) = db.votes.map (fun v => v.id) := by
      rw [List.map_map]
      refine List.map_congr_left ?_
      intro v _
      by_cases hv : v.id = vid <;> simp [hv]
    have hb : ∀ v ∈ db.votes.map
        (fun w => if w.id == vid then { w with vote_type := t } else w),
        v.id < db.nextVoteId := by
      intro v hv
      rw [List.mem_map] at hv
      obtain ⟨w, hw, rfl⟩ := hv
      have : ((if w.id == vid then { w with vote_type := t } else w) : Vote).id = w.id := by
        by_cases hww : w.id = vid <;> simp [hww]
      rw [this]
      exact hbound w hw
    by_cases hsame : (old.vote_type == t) = true
    · simp only [hsame, if_true]
      exact ⟨hids ▸ hnodup, hb⟩
    · simp only [Bool.not_eq_true] at hsame
      simp only [hsame, Bool.false_eq_true, if_false]
      exact ⟨hids ▸ hnodup, hb⟩

theorem WF_deleteVoteRow (db : DB) (vid : Nat) (h : WF db) : WF (deleteVoteRow db vid) := by
  obtain ⟨hnodup, hbound⟩ := h
  rw [deleteVoteRow]
  cases hfind : db.votes.find? (fun v => v.id == vid) with
  | none => exact ⟨hnodup, hbound⟩
  | some old =>
    constructor
    · exact List.Nodup.sublist (List.Sublist.map _ (List.filter_sublist _)) hnodup
    · intro v hv
      exact hbound v (List.mem_of_mem_filter hv)

theorem countersOk_tryInsertVote (db db' : DB) (uid fid i : Nat) (t : VoteType)
    (hok : countersOk db = true)
    (h : tryInsertVote db uid fid t = Except.ok (db', i)) : countersOk db' = true := by
  rw [tryInsertVote] at h
  split at h
  · exact absurd h (by simp)
  · split at h
    · exact absurd h (by simp)
    · simp only [Except.ok.injEq, Prod.mk.injEq] at h
      obtain ⟨h1, -⟩ := h
      exact h1 ▸ countersOk_insertVote db uid fid t hok

theorem WF_tryInsertVote (db db' : DB) (uid fid i : Nat) (t : VoteType)
    (hwf : WF db)
    (h : tryInsertVote db uid fid t = Except.ok (db', i)) : WF db' := by
  rw [tryInsertVote] at h
  split at h
  · exact absurd h (by simp)
  · split at h
    · exact absurd h (by simp)
    · simp only [Except.ok.injEq, Prod.mk.injEq] at h
      obtain ⟨h1, -⟩ := h
      exact h1 ▸ WF_insertVote db uid fid t hwf

/-! ### Invariant preservation for the handlers -/

theorem countersOk_castVote (db : DB) (uid fid : Nat) (t : VoteType)
    (hnodup : (db.votes.map (fun v => v.id)).Nodup)
    (hok : countersOk db = true) : countersOk (castVote db uid fid t).1 = true := by
  rw [castVote, castVoteRaced]
  cases hf : db.features.find? (fun f => f.id == fid) with
  | none => exact hok
  | some feature =>
    by_cases hown : (feature.user_id == uid) = true
    · simp only [hown, if_true]
      exact hok
    · simp only [Bool.not_eq_true] at hown
      simp only [hown, Bool.false_eq_true, if_false]
      by_cases harch : (feature.status == FStatus.archived) = true
      · simp only [harch, if_true]
        exact hok
      · simp only [Bool.not_eq_true] at harch
        simp only [harch, Bool.false_eq_true, if_false]
        cases hex : db.votes.find? (fun v => v.user_id == uid && v.feature_id == fid) with
        | some ex =>
          by_cases hsame : (ex.vote_type == t) = true
          · simp only [hsame, if_true]
            exact countersOk_deleteVoteRow db ex.id hnodup hok
          · simp only [Bool.not_eq_true] at hsame
            simp only [hsame, Bool.false_eq_true, if_false]
            exact countersOk_updateVoteRow db ex.id t hnodup hok
        | none =>
          cases hins : tryInsertVote db uid fid t with
          | ok p =>
            obtain ⟨db2, vid⟩ := p
            simp only
            exact countersOk_tryInsertVote db db2 uid fid vid t hok hins
          | error e => exact hok

theorem countersOk_updateVote (db : DB) (vid uid : Nat) (t : VoteType)
    (hnodup : (db.votes.map (fun v => v.id)).Nodup)
    (hok : countersOk db = true) : countersOk (updateVote db vid uid t).1 = true := by
  rw [updateVote]
  cases hfind : db.votes.find? (fun v => v.id == vid && v.user_id == uid) with
  | none => exact hok
  | some vote =>
    by_cases hsame : (vote.vote_type == t) = true
    · simp only [hsame, if_true]
      exact hok
    · simp only [Bool.not_eq_true] at hsame
      simp only [hsame, Bool.false_eq_true, if_false]
      exact countersOk_updateVoteRow db vid t hnodup hok

theorem countersOk_removeVote (db : DB) (vid uid : Nat)
    (hnodup : (db.votes.map (fun v => v.id)).Nodup)
    (hok : countersOk db = true) : countersOk (removeVote db vid uid).1 = true := by
  rw [removeVote]
  cases hfind : db.votes.find? (fun v => v.id == vid && v.user_id == uid) with
  | none => exact hok
  | some vote => exact countersOk_deleteVoteRow db vid hnodup hok

theorem countersOk_runBulkOp (a : Nat) (db : DB) (op : BulkOp)
    (hnodup : (db.votes.map (fun v => v.id)).Nodup)
    (hok : countersOk db = true) : countersOk (runBulkOp a db op).1 = true := by
  rw [runBulkOp]
  split
  · split
    · split
      · rename_i heq
        exact countersOk_tryInsertVote db _ a _ _ _ hok heq
      · exact hok
    · exact hok
  · split
    · exact countersOk_updateVoteRow db _ _ hnodup hok
    · exact hok
  · split
    · exact countersOk_deleteVoteRow db _ hnodup hok
    · exact hok

theorem WF_runBulkOp (a : Nat) (db : DB) (op : BulkOp) (hwf : WF db) :
    WF (runBulkOp a db op).1 := by
  rw [runBulkOp]
  split
  · split
    · split
      · rename_i heq
        exact WF_tryInsertVote db _ a _ _ _ hwf heq
      · exact hwf
    · exact hwf
  · split
    · exact WF_updateVoteRow db _ _ hwf
    · exact hwf
  · split
    · exact WF_deleteVoteRow db _ hwf
    · exact hwf

/-! ### The bulk fold -/

/-- The accumulated results list never influences the database threaded
through the bulk loop, and results are appended in order. -/
theorem runBulk_acc (a : Nat) (ops : List BulkOp) (db : DB)
    (acc : List BulkOpResult) :
    ops.foldl
      (fun acc2 op =>
        let step := runBulkOp a acc2.1 op
        (step.1, acc2.2 ++ [step.2]))
      (db, acc) =
    ((runBulk a db ops).1, acc ++ (runBulk a db ops).2) := by
  induction ops generalizing db acc with
  | nil => simp [runBulk]
  | cons op ops ih =>
    rw [List.foldl_cons]
    simp only
    rw [ih]
    conv_rhs => rw [runBulk, List.foldl_cons]
    simp only
    rw [show (ops.foldl
      (fun acc2 op =>
        let step := runBulkOp a acc2.1 op
        (step.1, acc2.2 ++ [step.2]))
      ((runBulkOp a db op).1, [] ++ [(runBulkOp a db op).2])) =
      ((runBulk a (runBulkOp a db op).1 ops).1,
        ([] ++ [(runBulkOp a db op).2]) ++ (runBulk a (runBulkOp a db op).1 ops).2)
      from ih (runBulkOp a db op).1 ([] ++ [(runBulkOp a db op).2])]
    simp

/-- Stepping the bulk loop: the database after `op :: ops` is the database
after `ops` started from the state `op` left behind. -/
theorem runBulk_cons_fst (a : Nat) (db : DB) (op : BulkOp) (ops : List BulkOp) :
    (runBulk a db (op :: ops)).1 = (runBulk a (runBulkOp a db op).1 ops).1 := by
  rw [runBulk, List.foldl_cons]
  simp only
  rw [runBulk_acc]

/-- One result per operation, in order. -/
theorem runBulk_cons_snd (a : Nat) (db : DB) (op : BulkOp) (ops : List BulkOp) :
    (runBulk a db (op :: ops)).2 =
      (runBulkOp a db op).2 :: (runBulk a (runBulkOp a db op).1 ops).2 := by
  rw [runBulk, List.foldl_cons]
  simp only
  rw [runBulk_acc]
  simp

theorem countersOk_runBulk (a : Nat) (ops : List BulkOp) (db : DB)
    (hwf : WF db) (hok : countersOk db = true) :
    countersOk (runBulk a db ops).1 = true := by
  induction ops generalizing db with
  | nil => simpa [runBulk] using hok
  | cons op ops ih =>
    rw [runBulk_cons_fst]
    exact ih (runBulkOp a db op).1 (WF_runBulkOp a db op hwf)
      (countersOk_runBulkOp a db op hwf.1 hok)

/-! ### The three branches of the cast handler -/

theorem castVote_created (db : DB) (uid fid : Nat) (t : VoteType) (f : Feature)
    (hf : db.features.find? (fun g => g.id == fid) = some f)
    (hown : ¬ f.user_id = uid) (harch : ¬ f.status = FStatus.archived)
    (hnone : db.votes.find? (fun v => v.user_id == uid && v.feature_id == fid) = none) :
    castVote db uid fid t =
      (insertVote db uid fid t,
       HandlerResult.ok
         (mkCastData (insertVote db uid fid t) (some db.nextVoteId) "created" (some t) fid)) := by
  have hownb : (f.user_id == uid) = false := by simpa using hown
  have harchb : (f.status == FStatus.archived) = false := by simpa using harch
  have hfk : (db.features.all (fun g => !(g.id == fid))) = false := by
    rw [Bool.eq_false_iff, Ne, List.all_eq_true]
    intro hall
    have := hall f (List.mem_of_find?_eq_some hf)
    simp [List.find?_some hf] at this
  have hdup : (db.votes.any (fun v => v.user_id == uid && v.feature_id == fid)) = false := by
    rw [Bool.eq_false_iff, Ne, List.any_eq_true]
    rintro ⟨v, hv, hp⟩
    exact absurd hp (by simpa using (List.find?_eq_none.mp hnone) v hv)
  rw [castVote, castVoteRaced, hf]
  simp only [hownb, Bool.false_eq_true, if_false, harchb, hnone]
  rw [tryInsertVote]
  simp [hfk, hdup]

theorem castVote_removed (db : DB) (uid fid : Nat) (t : VoteType) (f : Feature) (ex : Vote)
    (hf : db.features.find? (fun g => g.id == fid) = some f)
    (hown : ¬ f.user_id = uid) (harch : ¬ f.status = FStatus.archived)
    (hex : db.votes.find? (fun v => v.user_id == uid && v.feature_id == fid) = some ex)
    (hsame : ex.vote_type = t) :
    castVote db uid fid t =
      (deleteVoteRow db ex.id,
       HandlerResult.ok (mkCastData (deleteVoteRow db ex.id) none "removed" none fid)) := by
  have hownb : (f.user_id == uid) = false := by simpa using hown
  have harchb : (f.status == FStatus.archived) = false := by simpa using harch
  have hsameb : (ex.vote_type == t) = true := by simpa using hsame
  rw [castVote, castVoteRaced, hf]
  simp only [hownb, Bool.false_eq_true, if_false, harchb, hex, hsameb, if_true]

theorem castVote_updated (db : DB) (uid fid : Nat) (t : VoteType) (f : Feature) (ex : Vote)
    (hf : db.features.find? (fun g => g.id == fid) = some f)
    (hown : ¬ f.user_id = uid) (harch : ¬ f.status = FStatus.archived)
    (hex : db.votes.find? (fun v => v.user_id == uid && v.feature_id == fid) = some ex)
    (hdiffer : ¬ ex.vote_type = t) :
    castVote db uid fid t =
      (updateVoteRow db ex.id t,
       HandlerResult.ok
         (mkCastData (updateVoteRow db ex.id t) (some ex.id) "updated" (some t) fid)) := by
  have hownb : (f.user_id == uid) = false := by simpa using hown
  have harchb : (f.status == FStatus.archived) = false := by simpa using harch
  have hdiffb : (ex.vote_type == t) = false := by simpa using hdiffer
  rw [castVote, castVoteRaced, hf]
  simp only [hownb, Bool.false_eq_true, if_false, harchb, hex, hdiffb]

/-- A row found by the ownership-scoped lookup makes the id-scoped statements
act on a nonempty match: the updated votes list is the mapped list. -/
theorem updateVoteRow_votes_of_mem (db : DB) (vid : Nat) (t : VoteType)
    (hmem : ∃ v ∈ db.votes, v.id = vid) :
    (updateVoteRow db vid t).votes =
      db.votes.map (fun v => if v.id == vid then { v with vote_type := t } else v) := by
  rw [updateVoteRow]
  cases hfind : db.votes.find? (fun v => v.id == vid) with
  | none =>
    obtain ⟨v, hv, hvid⟩ := hmem
    exact absurd (by simpa using hvid) (by simpa using (List.find?_eq_none.mp hfind) v hv)
  | some old =>
    by_cases hsame : (old.vote_type == t) = true
    · simp only [hsame, if_true]
    · simp only [Bool.not_eq_true] at hsame
      simp only [hsame, Bool.false_eq_true, if_false]

/-- Same for a delete: the deleted votes list is the filtered list. -/
theorem deleteVoteRow_votes_of_mem (db : DB) (vid : Nat)
    (hmem : ∃ v ∈ db.votes, v.id = vid) :
    (deleteVoteRow db vid).votes = db.votes.filter (fun v => !(v.id == vid)) := by
  rw [deleteVoteRow]
  cases hfind : db.votes.find? (fun v => v.id == vid) with
  | none =>
    obtain ⟨v, hv, hvid⟩ := hmem
    exact absurd (by simpa using hvid) (by simpa using (List.find?_eq_none.mp hfind) v hv)
  | some old => rfl

/-- Lookups by feature id pass through a counter recompute: the found row is
the recomputed image of the row found before. -/
theorem find?_recomputeCounts (votes : List Vote) (fid qid : Nat)
    (features : List Feature) :
    (recomputeCounts votes fid features).find? (fun g => g.id == qid) =
      (features.find? (fun g => g.id == qid)).map
        (fun f =>
          if f.id == fid then
            { f with
              upvotes_count := countTyped votes fid VoteType.upvote,
              downvotes_count := countTyped votes fid VoteType.downvote,
              votes_count :=
                (countTyped votes fid VoteType.upvote : Int) -
                  (countTyped votes fid VoteType.downvote : Int) }
          else f) := by
  rw [recomputeCounts, List.find?_map]
  congr 2
  funext g
  by_cases h : g.id = fid <;> simp [h]

theorem filter_ne_id_eq_self (votes : List Vote) (n : Nat)
    (h : ∀ v ∈ votes, v.id < n) : votes.filter (fun v => !(v.id == n)) = votes := by
  rw [List.filter_eq_self]
  intro v hv
  have := h v hv
  simp only [Bool.not_eq_true']
  simp only [beq_eq_false_iff_ne, Ne]
  omega

/-! ### The claims -/

/-- Claim C1: on a well-formed database whose counters already match the
ledger, every vote operation — cast_vote, update_vote, remove_vote, a single
bulk operation, and a whole bulk batch — leaves the counters of every feature
equal to the ledger aggregate: upvotes_count is the number of upvote rows for
the feature, downvotes_count the number of downvote rows, and votes_count
their difference. -/
theorem C1_counters_match_ledger (db : DB) (uid fid vid aid : Nat) (t : VoteType)
    (op : BulkOp) (ops : List BulkOp)
    (hwf : WF db) (hok : countersOk db = true) :
    countersOk (castVote db uid fid t).1 = true ∧
    countersOk (updateVote db vid uid t).1 = true ∧
    countersOk (removeVote db vid uid).1 = true ∧
    countersOk (runBulkOp aid db op).1 = true ∧
    countersOk (runBulk aid db ops).1 = true :=
  ⟨countersOk_castVote db uid fid t hwf.1 hok,
   countersOk_updateVote db vid uid t hwf.1 hok,
   countersOk_removeVote db vid uid hwf.1 hok,
   countersOk_runBulkOp aid db op hwf.1 hok,
   countersOk_runBulk aid ops db hwf hok⟩

/-- Witness for C1 at a concrete database. -/
theorem C1_counters_match_ledger_witness :
    countersOk (castVote ⟨[⟨1, 1, FStatus.pending, 1, 1, 0⟩],
      [⟨1, 2, 1, VoteType.upvote⟩], 2⟩ 2 1 VoteType.downvote).1 = true :=
  (C1_counters_match_ledger ⟨[⟨1, 1, FStatus.pending, 1, 1, 0⟩],
      [⟨1, 2, 1, VoteType.upvote⟩], 2⟩ 2 1 1 3 VoteType.downvote
      ⟨BulkAction.create, some 1, none, some VoteType.upvote, none⟩ []
      (by decide) (by decide)).1

/-- Claim C2: when cast_vote's preconditions hold (feature found, caller not
the owner, feature not archived), the handler follows the three-way branch on
the existing ledger row for (user_id, feature_id): no row — a new row with
the given vote_type is appended under the fresh id and the action is
`created`; a row with the same vote_type — that row is deleted and the action
is `removed` with null vote_type; a row with a different vote_type — the
row's vote_type is updated in place and the action is `updated`. -/
theorem C2_cast_three_way (db : DB) (uid fid : Nat) (t : VoteType) (f : Feature)
    (hf : db.features.find? (fun g => g.id == fid) = some f)
    (hown : ¬ f.user_id = uid) (harch : ¬ f.status = FStatus.archived) :
    (db.votes.find? (fun v => v.user_id == uid && v.feature_id == fid) = none →
      castVote db uid fid t =
        (insertVote db uid fid t,
         HandlerResult.ok
           (mkCastData (insertVote db uid fid t) (some db.nextVoteId) "created" (some t) fid)) ∧
      (insertVote db uid fid t).votes = db.votes ++ [⟨db.nextVoteId, uid, fid, t⟩]) ∧
    (∀ ex, db.votes.find? (fun v => v.user_id == uid && v.feature_id == fid) = some ex →
      (ex.vote_type = t →
        castVote db uid fid t =
          (deleteVoteRow db ex.id,
           HandlerResult.ok (mkCastData (deleteVoteRow db ex.id) none "removed" none fid)) ∧
        (deleteVoteRow db ex.id).votes = db.votes.filter (fun v => !(v.id == ex.id))) ∧
      (¬ ex.vote_type = t →
        castVote db uid fid t =
          (updateVoteRow db ex.id t,
           HandlerResult.ok
             (mkCastData (updateVoteRow db ex.id t) (some ex.id) "updated" (some t) fid)) ∧
        (updateVoteRow db ex.id t).votes =
          db.votes.map (fun v => if v.id == ex.id then { v with vote_type := t } else v))) := by
  refine ⟨fun hnone => ⟨castVote_created db uid fid t f hf hown harch hnone, rfl⟩,
    fun ex hex => ⟨fun hsame => ⟨castVote_removed db uid fid t f ex hf hown harch hex hsame, ?_⟩,
      fun hdiffer => ⟨castVote_updated db uid fid t f ex hf hown harch hex hdiffer, ?_⟩⟩⟩
  · exact deleteVoteRow_votes_of_mem db ex.id
      ⟨ex, List.mem_of_find?_eq_some hex, rfl⟩
  · exact updateVoteRow_votes_of_mem db ex.id t
      ⟨ex, List.mem_of_find?_eq_some hex, rfl⟩

/-- Witness for C2: a first cast on a fresh feature creates the vote. -/
theorem C2_cast_three_way_witness :
    castVote ⟨[⟨1, 1, FStatus.pending, 0, 0, 0⟩], [], 1⟩ 2 1 VoteType.upvote =
      (insertVote ⟨[⟨1, 1, FStatus.pending, 0, 0, 0⟩], [], 1⟩ 2 1 VoteType.upvote,
       HandlerResult.ok
         (mkCastData (insertVote ⟨[⟨1, 1, FStatus.pending, 0, 0, 0⟩], [], 1⟩ 2 1 VoteType.upvote)
           (some 1) "created" (some VoteType.upvote) 1)) :=
  ((C2_cast_three_way ⟨[⟨1, 1, FStatus.pending, 0, 0, 0⟩], [], 1⟩ 2 1 VoteType.upvote
      ⟨1, 1, FStatus.pending, 0, 0, 0⟩ (by decide) (by decide) (by decide)).1 (by decide)).1

/-- Claim C7: a feature's owner can never vote on it: cast_vote by the owner
returns the 400 self-vote error and leaves the database (ledger rows and all
feature counters) unchanged. -/
theorem C7_no_self_vote (db : DB) (uid fid : Nat) (t : VoteType) (f : Feature)
    (hf : db.features.find? (fun g => g.id == fid) = some f)
    (hown : f.user_id = uid) :
    castVote db uid fid t = (db, HandlerResult.err 400 "Cannot vote on your own feature") := by
  rw [castVote, castVoteRaced, hf]
  simp [hown]

/-- Witness for C7: the owner of feature 1 casting on it. -/
theorem C7_no_self_vote_witness :
    castVote ⟨[⟨1, 7, FStatus.pending, 0, 0, 0⟩], [], 1⟩ 7 1 VoteType.upvote =
      (⟨[⟨1, 7, FStatus.pending, 0, 0, 0⟩], [], 1⟩,
       HandlerResult.err 400 "Cannot vote on your own feature") :=
  C7_no_self_vote ⟨[⟨1, 7, FStatus.pending, 0, 0, 0⟩], [], 1⟩ 7 1 VoteType.upvote
    ⟨1, 7, FStatus.pending, 0, 0, 0⟩ (by decide) rfl

/-- Claim C8 counterexample: when the caller is the owner of an archived
feature, cast_vote fails with the self-vote error, not the archived-feature
error the claim requires for every caller. -/
theorem C8_counterexample :
    castVote ⟨[⟨1, 7, FStatus.archived, 0, 0, 0⟩], [], 1⟩ 7 1 VoteType.upvote =
      (⟨[⟨1, 7, FStatus.archived, 0, 0, 0⟩], [], 1⟩,
       HandlerResult.err 400 "Cannot vote on your own feature") ∧
    ¬ (castVote ⟨[⟨1, 7, FStatus.archived, 0, 0, 0⟩], [], 1⟩ 7 1 VoteType.upvote).2 =
      HandlerResult.err 400 "Cannot vote on archived features" := by
  constructor
  · rfl
  · intro h
    simp [castVote, castVoteRaced] at h

/-- Claim C8 amended: cast_vote on an archived feature always fails with a
400 and no mutation, regardless of the caller's prior vote history; every
caller other than the owner gets the archived-feature error, while the owner
gets the self-vote error because the ownership check runs first. -/
theorem C8_archived_immutable (db : DB) (uid fid : Nat) (t : VoteType) (f : Feature)
    (hf : db.features.find? (fun g => g.id == fid) = some f)
    (harch : f.status = FStatus.archived) :
    (¬ f.user_id = uid →
      castVote db uid fid t = (db, HandlerResult.err 400 "Cannot vote on archived features")) ∧
    (f.user_id = uid →
      castVote db uid fid t = (db, HandlerResult.err 400 "Cannot vote on your own feature")) := by
  constructor
  · intro hown
    have hownb : (f.user_id == uid) = false := by simpa using hown
    rw [castVote, castVoteRaced, hf]
    simp [hownb, harch]
  · intro hown
    rw [castVote, castVoteRaced, hf]
    simp [hown]

/-- Witness for the amended C8: a non-owner casting on an archived feature
with a prior vote on record. -/
theorem C8_archived_immutable_witness :
    castVote ⟨[⟨1, 7, FStatus.archived, 1, 1, 0⟩], [⟨3, 2, 1, VoteType.upvote⟩], 4⟩
        2 1 VoteType.upvote =
      (⟨[⟨1, 7, FStatus.archived, 1, 1, 0⟩], [⟨3, 2, 1, VoteType.upvote⟩], 4⟩,
       HandlerResult.err 400 "Cannot vote on archived features") :=
  (C8_archived_immutable ⟨[⟨1, 7, FStatus.archived, 1, 1, 0⟩],
      [⟨3, 2, 1, VoteType.upvote⟩], 4⟩ 2 1 VoteType.upvote
      ⟨1, 7, FStatus.archived, 1, 1, 0⟩ (by decide) rfl).1 (by decide)

/-- Claim C9: a missing vote id and a vote id owned by another user produce
the exact same 404 response from update_vote and remove_vote — the caller
cannot distinguish the two database states from the operation's output. -/
theorem C9_notfound_indistinguishable (dbA dbB : DB) (vid uid : Nat) (t : VoteType)
    (hA : ∀ v ∈ dbA.votes, ¬ v.id = vid)
    (hB : ∀ v ∈ dbB.votes, v.id = vid → ¬ v.user_id = uid) :
    (updateVote dbA vid uid t).2 = (updateVote dbB vid uid t).2 ∧
    (removeVote dbA vid uid).2 = (removeVote dbB vid uid).2 ∧
    (updateVote dbA vid uid t).2 = HandlerResult.err 404 "Vote not found or access denied" ∧
    (removeVote dbA vid uid).2 = HandlerResult.err 404 "Vote not found or access denied" := by
  have hfA : dbA.votes.find? (fun v => v.id == vid && v.user_id == uid) = none := by
    rw [List.find?_eq_none]
    intro v hv
    simp [hA v hv]
  have hfB : dbB.votes.find? (fun v => v.id == vid && v.user_id == uid) = none := by
    rw [List.find?_eq_none]
    intro v hv
    by_cases h : v.id = vid
    · simp [h, hB v hv h]
    · simp [h]
  have h1 : updateVote dbA vid uid t =
      (dbA, HandlerResult.err 404 "Vote not found or access denied") := by
    rw [updateVote, hfA]
  have h2 : updateVote dbB vid uid t =
      (dbB, HandlerResult.err 404 "Vote not found or access denied") := by
    rw [updateVote, hfB]
  have h3 : removeVote dbA vid uid =
      (dbA, HandlerResult.err 404 "Vote not found or access denied") := by
    rw [removeVote, hfA]
  have h4 : removeVote dbB vid uid =
      (dbB, HandlerResult.err 404 "Vote not found or access denied") := by
    rw [removeVote, hfB]
  rw [h1, h2, h3, h4]
  exact ⟨rfl, rfl, rfl, rfl⟩

/-- Witness for C9: vote 5 absent in one database, owned by user 9 in the
other; caller is user 2. -/
theorem C9_notfound_indistinguishable_witness :
    (updateVote ⟨[], [], 1⟩ 5 2 VoteType.upvote).2 =
      (updateVote ⟨[], [⟨5, 9, 1, VoteType.upvote⟩], 6⟩ 5 2 VoteType.upvote).2 ∧
    (removeVote ⟨[], [], 1⟩ 5 2).2 =
      (removeVote ⟨[], [⟨5, 9, 1, VoteType.upvote⟩], 6⟩ 5 2).2 ∧
    (updateVote ⟨[], [], 1⟩ 5 2 VoteType.upvote).2 =
      HandlerResult.err 404 "Vote not found or access denied" ∧
    (removeVote ⟨[], [], 1⟩ 5 2).2 =
      HandlerResult.err 404 "Vote not found or access denied" :=
  C9_notfound_indistinguishable ⟨[], [], 1⟩ ⟨[], [⟨5, 9, 1, VoteType.upvote⟩], 6⟩ 5 2
    VoteType.upvote (by decide) (by decide)

/-- Claim C10: a bulk create inserts a row whose user_id is the calling
admin's id (any user_id field on the operation is ignored), and the only
conditions for success are the schema constraints — feature exists (foreign
key) and no duplicate (unique key): no archived-status, self-vote or
existing-vote check is performed. -/
theorem C10_bulk_create_unchecked (adminId : Nat) (db : DB) (op : BulkOp) (fid : Nat)
    (t : VoteType)
    (ha : op.action = BulkAction.create) (hfid : op.feature_id = some fid)
    (ht : op.vote_type = some t)
    (hfk : ∃ f ∈ db.features, f.id = fid)
    (hnodup : ∀ v ∈ db.votes, ¬ (v.user_id = adminId ∧ v.feature_id = fid)) :
    runBulkOp adminId db op =
      (insertVote db adminId fid t,
       { operation := op, success := true, vote_id := some db.nextVoteId, error := none }) ∧
    (insertVote db adminId fid t).votes =
      db.votes ++ [⟨db.nextVoteId, adminId, fid, t⟩] := by
  refine ⟨?_, rfl⟩
  have hfkb : (db.features.all (fun g => !(g.id == fid))) = false := by
    obtain ⟨f, hfmem, hfeq⟩ := hfk
    rw [Bool.eq_false_iff, Ne, List.all_eq_true]
    intro hall
    have := hall f hfmem
    simp [hfeq] at this
  have hdup : (db.votes.any (fun v => v.user_id == adminId && v.feature_id == fid)) = false := by
    rw [Bool.eq_false_iff, Ne, List.any_eq_true]
    rintro ⟨v, hv, hp⟩
    simp only [Bool.and_eq_true, beq_iff_eq] at hp
    exact hnodup v hv hp
  simp only [runBulkOp, ha, hfid, ht, tryInsertVote, hfkb, hdup]
  simp

/-- Witness for C10: the admin bulk-creates a vote on their own archived
feature; the operation's user_id field (42) is ignored. -/
theorem C10_bulk_create_unchecked_witness :
    runBulkOp 1 ⟨[⟨4, 1, FStatus.archived, 0, 0, 0⟩], [], 7⟩
        ⟨BulkAction.create, some 4, none, some VoteType.upvote, some 42⟩ =
      (insertVote ⟨[⟨4, 1, FStatus.archived, 0, 0, 0⟩], [], 7⟩ 1 4 VoteType.upvote,
       { operation := ⟨BulkAction.create, some 4, none, some VoteType.upvote, some 42⟩,
         success := true, vote_id := some 7, error := none }) :=
  (C10_bulk_create_unchecked 1 ⟨[⟨4, 1, FStatus.archived, 0, 0, 0⟩], [], 7⟩
      ⟨BulkAction.create, some 4, none, some VoteType.upvote, some 42⟩ 4 VoteType.upvote
      rfl rfl rfl ⟨⟨4, 1, FStatus.archived, 0, 0, 0⟩, by decide, rfl⟩ (by decide)).1

/-- Claim C3 counterexample: feature 1 is archived, yet update_vote changes
the caller's vote row and remove_vote deletes it; neither operation is
rejected at the Voting Service boundary. -/
theorem C3_counterexample :
    (updateVote ⟨[⟨1, 1, FStatus.archived, 1, 1, 0⟩], [⟨10, 2, 1, VoteType.upvote⟩], 11⟩
        10 2 VoteType.downvote).2 =
      HandlerResult.ok (some ⟨10, 2, 1, VoteType.downvote⟩) ∧
    (updateVote ⟨[⟨1, 1, FStatus.archived, 1, 1, 0⟩], [⟨10, 2, 1, VoteType.upvote⟩], 11⟩
        10 2 VoteType.downvote).1.votes = [⟨10, 2, 1, VoteType.downvote⟩] ∧
    (removeVote ⟨[⟨1, 1, FStatus.archived, 1, 1, 0⟩], [⟨10, 2, 1, VoteType.upvote⟩], 11⟩
        10 2).2 = HandlerResult.ok () ∧
    (removeVote ⟨[⟨1, 1, FStatus.archived, 1, 1, 0⟩], [⟨10, 2, 1, VoteType.upvote⟩], 11⟩
        10 2).1.votes = [] := by
  decide

/-- Claim C3 amended: update_vote and remove_vote never consult the
referenced feature's status: whenever the ownership-scoped lookup finds the
vote (on any feature, archived included), update_vote with a differing
vote_type succeeds and rewrites the row in place, and remove_vote succeeds
and deletes the row. -/
theorem C3_no_status_check (db : DB) (vid uid : Nat) (t : VoteType) (v : Vote)
    (hfind : db.votes.find? (fun w => w.id == vid && w.user_id == uid) = some v)
    (hdiffer : ¬ v.vote_type = t) :
    (updateVote db vid uid t).2.isOk = true ∧
    (updateVote db vid uid t).1.votes =
      db.votes.map (fun w => if w.id == vid then { w with vote_type := t } else w) ∧
    removeVote db vid uid = (deleteVoteRow db vid, HandlerResult.ok ()) ∧
    (removeVote db vid uid).1.votes = db.votes.filter (fun w => !(w.id == vid)) := by
  have hvmem : v ∈ db.votes := List.mem_of_find?_eq_some hfind
  have hvid : v.id = vid := by
    have := List.find?_some hfind
    simp only [Bool.and_eq_true, beq_iff_eq] at this
    exact this.1
  have hdiffb : (v.vote_type == t) = false := by simpa using hdiffer
  refine ⟨?_, ?_, ?_, ?_⟩
  · rw [updateVote, hfind]
    simp only [hdiffb, Bool.false_eq_true, if_false]
    rfl
  · rw [updateVote, hfind]
    simp only [hdiffb, Bool.false_eq_true, if_false]
    exact updateVoteRow_votes_of_mem db vid t ⟨v, hvmem, hvid⟩
  · rw [removeVote, hfind]
  · rw [removeVote, hfind]
    exact deleteVoteRow_votes_of_mem db vid ⟨v, hvmem, hvid⟩

/-- Witness for the amended C3: the vote lives on an archived feature and is
still updated. -/
theorem C3_no_status_check_witness :
    (updateVote ⟨[⟨2, 1, FStatus.archived, 1, 1, 0⟩], [⟨10, 2, 2, VoteType.upvote⟩], 11⟩
        10 2 VoteType.downvote).2.isOk = true :=
  (C3_no_status_check ⟨[⟨2, 1, FStatus.archived, 1, 1, 0⟩], [⟨10, 2, 2, VoteType.upvote⟩], 11⟩
      10 2 VoteType.downvote ⟨10, 2, 2, VoteType.upvote⟩ (by decide) (by decide)).1

/-- Claim C4 counterexample: a concurrent insert commits between the
handler's read and its write, the uniqueness violation surfaces directly as
a 500 hard failure — even though re-reading and replaying the decision on
the resulting state would succeed, so the failure is not a failed retry. -/
theorem C4_counterexample :
    (castVoteRaced ⟨[⟨1, 1, FStatus.pending, 0, 0, 0⟩], [], 5⟩ 2 1 VoteType.upvote
        (some (2, 1, VoteType.upvote))).2 =
      HandlerResult.err 500 "Internal server error" ∧
    (castVote (castVoteRaced ⟨[⟨1, 1, FStatus.pending, 0, 0, 0⟩], [], 5⟩ 2 1 VoteType.upvote
        (some (2, 1, VoteType.upvote))).1 2 1 VoteType.upvote).2.isOk = true := by
  decide

/-- Claim C4 amended: when the insert of a new Vote row fails with the
uniqueness violation (a concurrent request inserted the (user, feature) row
first), the Voting Service performs no re-read and no replay: the
ER_DUP_ENTRY error is not ER_SIGNAL_EXCEPTION, so the catch block surfaces
it directly to the caller as a 500 Internal server error. -/
theorem C4_conflict_is_hard_500 (db : DB) (uid fid : Nat) (t rt : VoteType) (f : Feature)
    (hf : db.features.find? (fun g => g.id == fid) = some f)
    (hown : ¬ f.user_id = uid) (harch : ¬ f.status = FStatus.archived)
    (hnone : db.votes.find? (fun v => v.user_id == uid && v.feature_id == fid) = none) :
    castVoteRaced db uid fid t (some (uid, fid, rt)) =
      (insertVote db uid fid rt, HandlerResult.err 500 "Internal server error") := by
  have hownb : (f.user_id == uid) = false := by simpa using hown
  have harchb : (f.status == FStatus.archived) = false := by simpa using harch
  have hfidb : (f.id == fid) = true := by simpa using List.find?_some hf
  have hfk : ((insertVote db uid fid rt).features.all (fun g => !(g.id == fid))) = false := by
    rw [Bool.eq_false_iff, Ne, List.all_eq_true]
    intro hall
    have hmem : (if f.id == fid then
        { f with
          upvotes_count :=
            countTyped (db.votes ++ [⟨db.nextVoteId, uid, fid, rt⟩]) fid VoteType.upvote,
          downvotes_count :=
            countTyped (db.votes ++ [⟨db.nextVoteId, uid, fid, rt⟩]) fid VoteType.downvote,
          votes_count :=
            (countTyped (db.votes ++ [⟨db.nextVoteId, uid, fid, rt⟩]) fid VoteType.upvote : Int) -
              (countTyped (db.votes ++ [⟨db.nextVoteId, uid, fid, rt⟩]) fid
                VoteType.downvote : Int) }
      else f) ∈ (insertVote db uid fid rt).features := by
      simp only [insertVote, recomputeCounts]
      exact List.mem_map_of_mem _ (List.mem_of_find?_eq_some hf)
    have := hall _ hmem
    simp [hfidb] at this
  have hdup : ((insertVote db uid fid rt).votes.any
      (fun v => v.user_id == uid && v.feature_id == fid)) = true := by
    rw [List.any_eq_true]
    refine ⟨⟨db.nextVoteId, uid, fid, rt⟩, ?_, by simp⟩
    simp [insertVote]
  have hcatch : castVoteCatch SqlError.dupEntry =
      HandlerResult.err 500 "Internal server error" := by decide
  simp only [castVoteRaced, hf, hownb, Bool.false_eq_true, if_false, harchb, hnone,
    tryInsertVote, hfk, hdup, hcatch, if_true]

/-- Witness for the amended C4. -/
theorem C4_conflict_is_hard_500_witness :
    castVoteRaced ⟨[⟨1, 1, FStatus.pending, 0, 0, 0⟩], [], 5⟩ 2 1 VoteType.downvote
        (some (2, 1, VoteType.upvote)) =
      (insertVote ⟨[⟨1, 1, FStatus.pending, 0, 0, 0⟩], [], 5⟩ 2 1 VoteType.upvote,
       HandlerResult.err 500 "Internal server error") :=
  C4_conflict_is_hard_500 ⟨[⟨1, 1, FStatus.pending, 0, 0, 0⟩], [], 5⟩ 2 1
    VoteType.downvote VoteType.upvote ⟨1, 1, FStatus.pending, 0, 0, 0⟩
    (by decide) (by decide) (by decide) (by decide)

/-- Claim C5 counterexample: in a 3-operation admin batch whose operation 2
is an update of the nonexistent vote id 999 and whose operations 1 and 3 are
independently valid, the runner returns three results but marks operation 2
success:true — the zero-row UPDATE raises no error, so it is not recorded as
a failure. -/
theorem C5_counterexample :
    ((runBulk 1 ⟨[⟨10, 5, FStatus.pending, 0, 0, 0⟩, ⟨11, 6, FStatus.approved, 1, 1, 0⟩],
        [⟨20, 3, 11, VoteType.upvote⟩], 21⟩
        [⟨BulkAction.create, some 10, none, some VoteType.upvote, none⟩,
         ⟨BulkAction.update, none, some 999, some VoteType.downvote, none⟩,
         ⟨BulkAction.delete, none, some 20, none, none⟩]).2.map (fun r => r.success)) =
      [true, true, true] := by
  decide

/-- Claim C5 amended: the bulk runner still returns one result per operation
in order and never aborts at a failing operation, but an update referencing a
nonexistent vote_id is marked success:true, not success:false: the UPDATE
matches zero rows, raises no error, and leaves the database unchanged. -/
theorem C5_bulk_update_missing_marked_ok (a vid : Nat) (db dbMid : DB)
    (o1 o2 o3 : BulkOp) (t : VoteType)
    (ha : o2.action = BulkAction.update) (hv : o2.vote_id = some vid)
    (ht : o2.vote_type = some t)
    (hmiss : ∀ v ∈ dbMid.votes, ¬ v.id = vid) :
    runBulkOp a dbMid o2 =
      (dbMid, { operation := o2, success := true, vote_id := none, error := none }) ∧
    (runBulk a db [o1, o2, o3]).2 =
      [(runBulkOp a db o1).2,
       (runBulkOp a (runBulkOp a db o1).1 o2).2,
       (runBulkOp a (runBulkOp a (runBulkOp a db o1).1 o2).1 o3).2] := by
  constructor
  · have hfind : dbMid.votes.find? (fun v => v.id == vid) = none := by
      rw [List.find?_eq_none]
      intro v hvv
      simpa using hmiss v hvv
    have hrow : updateVoteRow dbMid vid t = dbMid := by
      rw [updateVoteRow, hfind]
    simp only [runBulkOp, ha, hv, ht, hrow]
  · rw [runBulk_cons_snd, runBulk_cons_snd, runBulk_cons_snd]
    simp [runBulk]

/-- Witness for the amended C5. -/
theorem C5_bulk_update_missing_marked_ok_witness :
    runBulkOp 1 ⟨[], [], 1⟩ ⟨BulkAction.update, none, some 999, some VoteType.downvote, none⟩ =
      (⟨[], [], 1⟩,
       { operation := ⟨BulkAction.update, none, some 999, some VoteType.downvote, none⟩,
         success := true, vote_id := none, error := none }) :=
  (C5_bulk_update_missing_marked_ok 1 999 ⟨[], [], 1⟩ ⟨[], [], 1⟩
      ⟨BulkAction.update, none, some 999, some VoteType.downvote, none⟩
      ⟨BulkAction.update, none, some 999, some VoteType.downvote, none⟩
      ⟨BulkAction.update, none, some 999, some VoteType.downvote, none⟩
      VoteType.downvote rfl rfl rfl (by decide)).1

/-- Claim C6: for a user with no vote on a feature they are allowed to vote
on, casting the same vote twice returns the database to its initial state:
the ledger holds no row for the pair (indeed the same rows as before), and
every feature — counters included — is exactly as before the first cast. -/
theorem C6_double_cast_roundtrip (db : DB) (uid fid : Nat) (f : Feature)
    (hwf : WF db) (hok : countersOk db = true)
    (hf : db.features.find? (fun g => g.id == fid) = some f)
    (hown : ¬ f.user_id = uid) (harch : ¬ f.status = FStatus.archived)
    (hnov : ∀ v ∈ db.votes, ¬ (v.user_id = uid ∧ v.feature_id = fid)) :
    (castVote (castVote db uid fid VoteType.upvote).1 uid fid VoteType.upvote).1.votes
        = db.votes ∧
    (castVote (castVote db uid fid VoteType.upvote).1 uid fid VoteType.upvote).1.features
        = db.features ∧
    ∀ v ∈ (castVote (castVote db uid fid VoteType.upvote).1 uid fid VoteType.upvote).1.votes,
      ¬ (v.user_id = uid ∧ v.feature_id = fid) := by
  have hok' : db.features.all (featureCountersOk db.votes) = true := hok
  have hnone : db.votes.find? (fun v => v.user_id == uid && v.feature_id == fid) = none := by
    rw [List.find?_eq_none]
    intro v hv
    simpa using hnov v hv
  have h1 := castVote_created db uid fid VoteType.upvote f hf hown harch hnone
  have hdb1votes : (insertVote db uid fid VoteType.upvote).votes =
      db.votes ++ [⟨db.nextVoteId, uid, fid, VoteType.upvote⟩] := rfl
  have hdb1feats : (insertVote db uid fid VoteType.upvote).features =
      recomputeCounts (db.votes ++ [⟨db.nextVoteId, uid, fid, VoteType.upvote⟩]) fid
        db.features := rfl
  have hfidb : (f.id == fid) = true := by simpa using List.find?_some hf
  have hf1 : ∃ f1, (insertVote db uid fid VoteType.upvote).features.find?
      (fun g => g.id == fid) = some f1 ∧ f1.user_id = f.user_id ∧ f1.status = f.status := by
    rw [hdb1feats, find?_recomputeCounts, hf]
    exact ⟨_, rfl, by simp [hfidb], by simp [hfidb]⟩
  obtain ⟨f1, hf1find, hf1user, hf1status⟩ := hf1
  have hex1 : (insertVote db uid fid VoteType.upvote).votes.find?
      (fun v => v.user_id == uid && v.feature_id == fid) =
      some ⟨db.nextVoteId, uid, fid, VoteType.upvote⟩ := by
    rw [hdb1votes, List.find?_append, hnone]
    simp [List.find?_singleton]
  have h2 := castVote_removed (insertVote db uid fid VoteType.upvote) uid fid
    VoteType.upvote f1 ⟨db.nextVoteId, uid, fid, VoteType.upvote⟩ hf1find
    (by rw [hf1user]; exact hown) (by rw [hf1status]; exact harch) hex1 rfl
  have hc1 : (castVote db uid fid VoteType.upvote).1 =
      insertVote db uid fid VoteType.upvote := by
    rw [h1]
  have hc2 : (castVote (insertVote db uid fid VoteType.upvote) uid fid VoteType.upvote).1 =
      deleteVoteRow (insertVote db uid fid VoteType.upvote) db.nextVoteId := by
    rw [h2]
  have hfind_n : (insertVote db uid fid VoteType.upvote).votes.find?
      (fun v => v.id == db.nextVoteId) =
      some ⟨db.nextVoteId, uid, fid, VoteType.upvote⟩ := by
    rw [hdb1votes, List.find?_append]
    have hlow : db.votes.find? (fun v => v.id == db.nextVoteId) = none := by
      rw [List.find?_eq_none]
      intro v hv
      have := hwf.2 v hv
      simp only [beq_iff_eq]
      omega
    rw [hlow]
    simp [List.find?_singleton]
  have hvotes2 : (insertVote db uid fid VoteType.upvote).votes.filter
      (fun v => !(v.id == db.nextVoteId)) = db.votes := by
    rw [hdb1votes, List.filter_append]
    rw [filter_ne_id_eq_self db.votes db.nextVoteId hwf.2]
    simp
  have hfeats : recomputeCounts db.votes fid
      (insertVote db uid fid VoteType.upvote).features = db.features := by
    rw [hdb1feats, recomputeCounts_recomputeCounts]
    exact recomputeCounts_eq_self db.votes fid db.features
      (fun g hg => (List.all_eq_true.mp hok') g hg)
  have hdel : deleteVoteRow (insertVote db uid fid VoteType.upvote) db.nextVoteId =
      { insertVote db uid fid VoteType.upvote with
        votes := db.votes,
        features := recomputeCounts db.votes fid
          (insertVote db uid fid VoteType.upvote).features } := by
    rw [deleteVoteRow, hfind_n]
    simp only [hvotes2]
  have hstate : (castVote (castVote db uid fid VoteType.upvote).1 uid fid VoteType.upvote).1 =
      { insertVote db uid fid VoteType.upvote with
        votes := db.votes, features := db.features } := by
    rw [hc1, hc2, hdel, hfeats]
  refine ⟨?_, ?_, ?_⟩
  · rw [hstate]
  · rw [hstate]
  · rw [hstate]
    intro v hv
    exact hnov v hv

/-- Witness for C6: user 2 double-casts an upvote on the empty-ledger
feature 1, ending with an empty ledger. -/
theorem C6_double_cast_roundtrip_witness :
    (castVote (castVote ⟨[⟨1, 1, FStatus.pending, 0, 0, 0⟩], [], 1⟩ 2 1 VoteType.upvote).1
        2 1 VoteType.upvote).1.votes = ([] : List Vote) :=
  (C6_double_cast_roundtrip ⟨[⟨1, 1, FStatus.pending, 0, 0, 0⟩], [], 1⟩ 2 1
      ⟨1, 1, FStatus.pending, 0, 0, 0⟩ (by decide) (by decide) (by decide) (by decide)
      (by decide) (by decide)).1

end Voting
